import Mathlib

/-!
Verification of the OSMusicPlayer display/barrier subsystem
(`src/kernel/barrier.h`): a shallow embedding of the rendezvous
barrier, the VGA palette and indexed-register port layout, and the
playback coordinator, with theorems checking the specification's
claims against the code.
-/

namespace OSMusic

/-! ## Rendezvous barrier (`Barrier`, src/kernel/barrier.h lines 9-30)

`Barrier` holds `Atomic<int32_t> count` and a `Semaphore sem`
initialised to 0.  `sync()` executes:

    int x = count.add_fetch(-1);
    if (x < 0) Debug::panic("count went negative in barrier");
    if (x == 0) { sem.up(); } else { sem.down(); sem.up(); }

We embed one `sync` call as a function of the pre-call countdown that
returns the post-decrement countdown, whether the call panicked, and
the sequence of semaphore operations it performs.
-/

/-- A semaphore operation performed by `sync`: `up` posts one token,
`down` consumes one token (blocking until one is available). -/
inductive SemOp
  | up
  | down
deriving DecidableEq

/-- Result of one `Barrier::sync` call: the panic flag, the countdown
value after the atomic decrement, and the semaphore operations issued
(in order) on the non-panicking paths. -/
structure SyncResult where
  panicked : Bool
  count : Int
  ops : List SemOp
deriving DecidableEq

/-- The value stored when a C++ `uint32_t` is used to initialise an
`int32_t` (two's-complement wrap). -/
def toInt32 (n : Nat) : Int :=
  if n % 2 ^ 32 < 2 ^ 31 then ((n % 2 ^ 32 : Nat) : Int)
  else ((n % 2 ^ 32 : Nat) : Int) - 2 ^ 32

/-- The constructor `Barrier::Barrier(uint32_t count) : count(count), sem(0)`
accepts any party count (no validation) and stores it in the signed
atomic countdown. -/
def barrierInit (n : Nat) : Int := toInt32 n

/-- The body of `Barrier::sync` (src/kernel/barrier.h lines 19-28):
atomically decrement the countdown; panic if the result is negative;
if it is zero post one token; otherwise consume one token and
re-post one. -/
def sync (c : Int) : SyncResult :=
  if c - 1 < 0 then ⟨true, c - 1, []⟩
  else if c - 1 = 0 then ⟨false, c - 1, [SemOp.up]⟩
  else ⟨false, c - 1, [SemOp.down, SemOp.up]⟩

/-- The countdown after `k` successive `sync` calls starting from
countdown `c` (each call performs exactly one atomic decrement). -/
def countAfterCalls : Nat → Int → Int
  | 0, c => c
  | k + 1, c => countAfterCalls k (sync c).count

/-! ### Concurrent model of the barrier

For the rendezvous property we model `N` threads each running `sync`
as an interleaved transition system.  A thread is at `start` before
its atomic decrement; `post` after a decrement that returned zero
(about to `sem.up()`); `waiting` after a positive decrement (blocked
in `sem.down()`); `relay` after its `down` succeeded (about to
re-post); `done` after returning; `panicked` after a negative
decrement.  The shared state is the countdown and the semaphore's
token count; threads are kept as a multiset of thread states. -/

/-- Control location of one thread inside `Barrier::sync`. -/
inductive TState
  | start
  | waiting
  | relay
  | post
  | done
  | panicked
deriving DecidableEq

/-- Shared barrier state: countdown, semaphore token count, and the
multiset of thread control locations. -/
structure BState where
  count : Int
  sem : Nat
  threads : Multiset TState
deriving DecidableEq

/-- Where a thread goes right after its atomic decrement returned
`x`: the three-way branch of `sync` (lines 21-27). -/
def syncNext (x : Int) : TState :=
  if x < 0 then TState.panicked
  else if x = 0 then TState.post
  else TState.waiting

/-- One interleaving step: a thread performs its next primitive
action (`count.add_fetch(-1)`, `sem.up()`, or `sem.down()`, the
latter enabled only when a token is available). -/
inductive Step : BState → BState → Prop
  | dec (c : Int) (sem : Nat) (r : Multiset TState) :
      Step ⟨c, sem, TState.start ::ₘ r⟩ ⟨c - 1, sem, syncNext (c - 1) ::ₘ r⟩
  | lastUp (c : Int) (sem : Nat) (r : Multiset TState) :
      Step ⟨c, sem, TState.post ::ₘ r⟩ ⟨c, sem + 1, TState.done ::ₘ r⟩
  | semDown (c : Int) (sem : Nat) (r : Multiset TState) :
      Step ⟨c, sem + 1, TState.waiting ::ₘ r⟩ ⟨c, sem, TState.relay ::ₘ r⟩
  | relayUp (c : Int) (sem : Nat) (r : Multiset TState) :
      Step ⟨c, sem, TState.relay ::ₘ r⟩ ⟨c, sem + 1, TState.done ::ₘ r⟩

/-- Initial state of a barrier for `n` parties with all `n` threads
about to call `sync`: countdown `n`, semaphore empty. -/
def initState (n : Nat) : BState :=
  ⟨(n : Int), 0, Multiset.replicate n TState.start⟩

/-- States reachable by interleaving the threads' steps. -/
def Reachable (s t : BState) : Prop := Relation.ReflTransGen Step s t

/-- Inductive invariant of the barrier transition system: the
countdown equals the number of threads that have not yet decremented;
no thread panicked; before all threads have decremented no token
exists and nobody has passed the rendezvous; and at most one token
(counting the one transiently held by a relaying or posting thread)
ever exists. -/
def Inv (s : BState) : Prop :=
  s.count = (s.threads.count TState.start : Int) ∧
  s.threads.count TState.panicked = 0 ∧
  (0 < s.threads.count TState.start →
    s.sem = 0 ∧ s.threads.count TState.relay = 0 ∧
    s.threads.count TState.post = 0 ∧ s.threads.count TState.done = 0) ∧
  s.sem + s.threads.count TState.relay + s.threads.count TState.post ≤ 1

/-! ## VGA palette (src/kernel/barrier.h lines 415-480)

The source declares `uint8_t palette[192]`, 64 consecutive RGB
triples. -/

/-- The 192 palette bytes, transcribed row by row from the source. -/
def palette : List Nat := [
  0x00, 0x00, 0x00,
  0x00, 0x00, 0x55,
  0x00, 0x00, 0xAA,
  0x00, 0x00, 0xFF,
  0x00, 0x55, 0x00,
  0x00, 0x55, 0x55,
  0x00, 0x55, 0xAA,
  0x00, 0x55, 0xFF,
  0x00, 0xAA, 0x00,
  0x00, 0xAA, 0x55,
  0x00, 0xAA, 0xAA,
  0x00, 0xAA, 0xFF,
  0x00, 0xFF, 0x00,
  0x00, 0xFF, 0x55,
  0x00, 0xFF, 0xAA,
  0x00, 0xFF, 0xFF,
  0x55, 0x00, 0x00,
  0x55, 0x00, 0x55,
  0x55, 0x00, 0xAA,
  0x55, 0x00, 0xFF,
  0x55, 0x55, 0x00,
  0x55, 0x55, 0x55,
  0x55, 0x55, 0xAA,
  0x55, 0x55, 0xFF,
  0x55, 0xAA, 0x00,
  0x55, 0xAA, 0x55,
  0x55, 0xAA, 0xAA,
  0x55, 0xAA, 0xFF,
  0x55, 0xFF, 0x00,
  0x55, 0xFF, 0x55,
  0x55, 0xFF, 0xAA,
  0x55, 0xFF, 0xFF,
  0xAA, 0x00, 0x00,
  0xAA, 0x00, 0x55,
  0xAA, 0x00, 0xAA,
  0xAA, 0x00, 0xFF,
  0xAA, 0x55, 0x00,
  0xAA, 0x55, 0x55,
  0xAA, 0x55, 0xAA,
  0xAA, 0x55, 0xFF,
  0xAA, 0xAA, 0x00,
  0xAA, 0xAA, 0x55,
  0xAA, 0xAA, 0xAA,
  0xAA, 0xAA, 0xFF,
  0xAA, 0xFF, 0x00,
  0xAA, 0xFF, 0x55,
  0xAA, 0xFF, 0xAA,
  0xAA, 0xFF, 0xFF,
  0xFF, 0x00, 0x00,
  0xFF, 0x00, 0x55,
  0xFF, 0x00, 0xAA,
  0xFF, 0x00, 0xFF,
  0xFF, 0x55, 0x00,
  0xFF, 0x55, 0x55,
  0xFF, 0x55, 0xAA,
  0xFF, 0x55, 0xFF,
  0xFF, 0xAA, 0x00,
  0xFF, 0xAA, 0x55,
  0xFF, 0xAA, 0xAA,
  0xFF, 0xAA, 0xFF,
  0xFF, 0xFF, 0x00,
  0xFF, 0xFF, 0x55,
  0xFF, 0xFF, 0xAA,
  0xFF, 0xFF, 0xFF]

/-- The RGB triple of palette entry `i`: bytes `3i`, `3i+1`, `3i+2`
of the palette array. -/
def paletteEntry (i : Nat) : Nat × Nat × Nat :=
  (palette.getD (3 * i) 0, palette.getD (3 * i + 1) 0,
    palette.getD (3 * i + 2) 0)

/-- Squared difference of two 8-bit channel values, over `Nat`
(`a - b + (b - a)` is `|a - b|` for truncated subtraction). -/
def chDist (a b : Nat) : Nat := (a - b + (b - a)) * (a - b + (b - a))

/-- Distance metric between a query color and a palette triple: sum
of squared differences over the three channels. -/
def colorDist (r g b : Nat) (e : Nat × Nat × Nat) : Nat :=
  chDist r e.1 + chDist g e.2.1 + chDist b e.2.2

/-- First-minimum fold: scans the candidate list keeping the earliest
candidate whose key is strictly smaller than the best so far, so ties
keep the lower (earlier) candidate. -/
def argminFold (f : Nat → Nat) (l : List Nat) (a : Nat) : Nat :=
  l.foldl (fun best i => if f i < f best then i else best) a

/-- Modelled from the spec: the body of `VGA::getColor(r, g, b)`
(declared at src/kernel/barrier.h line 249; its implementation file
is not among the repository sources).  Per the spec it performs a
nearest-match search over the 64-entry palette, minimizing a distance
metric over the three channels, ties broken by lowest palette
index. -/
def getColor (r g b : Nat) : Nat :=
  argminFold (fun i => colorDist r g b (paletteEntry i)) (List.range 64) 0

/-! ## Indexed-register port layout (src/kernel/barrier.h lines 92-111) -/

/-- Sequencer index port (`#define SEQ_INDEX 0x3C4`). -/
def SEQ_INDEX : Nat := 0x3C4

/-- Sequencer data port (`#define SEQ_RW 0x3C5`). -/
def SEQ_RW : Nat := 0x3C5

/-- Graphics controller index port (`#define GRAPHICS_CTRL_INDEX 0x3CE`). -/
def GRAPHICS_CTRL_INDEX : Nat := 0x3CE

/-- Graphics controller data port (`#define GRAPHICS_CTRL_RW 0x3CF`). -/
def GRAPHICS_CTRL_RW : Nat := 0x3CF

/-- CRT controller color index port (`#define CRTC_COLOR_INDEX 0x3D4`). -/
def CRTC_COLOR_INDEX : Nat := 0x3D4

/-- CRT controller color data port (`#define CRTC_COLOR_WRITE 0x3D5`). -/
def CRTC_COLOR_WRITE : Nat := 0x3D5

/-- CRT controller monochrome index port (`#define CRTC_MONOCHROME_INDEX 0x3B4`). -/
def CRTC_MONOCHROME_INDEX : Nat := 0x3B4

/-- CRT controller monochrome data port (`#define CRTC_MONOCHROME_WRITE 0x3B5`). -/
def CRTC_MONOCHROME_WRITE : Nat := 0x3B5

/-- Modelled from the spec: the indexed-register `write(index, value)`
operation (the register-protocol implementation is not among the
repository sources; only the port number definitions are).  It emits
the index byte on the group's index port, then the data byte on the
group's data port, which is index port + 1.  A write is a
`(port, byte)` pair and the list records emission order. -/
def writeIndexed (indexPort idx v : Nat) : List (Nat × Nat) :=
  [(indexPort, idx), (indexPort + 1, v)]

/-! ## Playback coordinator -/

/-- Playback status of the "now playing" overlay. -/
inductive PStatus
  | stopped
  | playing
  | paused
deriving DecidableEq

/-- Playback coordinator state: loaded file handle (`curr`, `none`
when no song is loaded), the elapsed-time counter, the status, and
the `new_song` flag. -/
structure PlayerState where
  curr : Option Nat
  elapsed : Nat
  status : PStatus
  new_song : Bool
deriving DecidableEq

/-- Modelled from the spec: `VGA::spotify(song, willPlay)` (declared
at src/kernel/barrier.h line 274; implementation not among the
repository sources).  It loads the new file reference, resets elapsed
time to zero, sets `new_song`, and enters Playing or Paused per
`willPlay`. -/
def spotify (song : Nat) (willPlay : Bool) (_s : PlayerState) : PlayerState :=
  { curr := some song, elapsed := 0,
    status := if willPlay then PStatus.playing else PStatus.paused,
    new_song := true }

/-- Modelled from the spec: `VGA::playingSong(delta)` (declared at
src/kernel/barrier.h line 255; implementation not among the
repository sources).  While Playing it advances the elapsed-time
counter by `delta`; while Paused or Stopped ticks are accepted but do
not advance elapsed time. -/
def playingSong (delta : Nat) (s : PlayerState) : PlayerState :=
  if s.status = PStatus.playing then { s with elapsed := s.elapsed + delta }
  else s

/-- Modelled from the spec: `VGA::play_pause()` (declared at
src/kernel/barrier.h line 278; implementation not among the
repository sources).  It toggles Playing ↔ Paused without changing
the loaded file or resetting elapsed time, and is a silent no-op when
Stopped. -/
def play_pause (s : PlayerState) : PlayerState :=
  match s.status with
  | PStatus.playing => { s with status := PStatus.paused }
  | PStatus.paused => { s with status := PStatus.playing }
  | PStatus.stopped => s

/-! ## Declared representation of the cross-context VGA fields
(src/kernel/barrier.h lines 214-217) -/

/-- How a field shared between execution contexts is declared in the
source: as an atomically updated word (`Atomic<uint32_t>`) or as a
plain `volatile bool` carrying no atomicity guarantee. -/
inductive FieldRepr
  | atomicWord
  | plainVolatileBool
deriving DecidableEq

/-- Declaration of `playing` (line 214: `volatile bool playing = 0;`). -/
def playing_repr : FieldRepr := FieldRepr.plainVolatileBool

/-- Declaration of `new_song` (line 215: `volatile bool new_song = 1;`). -/
def new_song_repr : FieldRepr := FieldRepr.plainVolatileBool

/-- Declaration of `elapsed_time` (line 217:
`Atomic<uint32_t> elapsed_time {0};`). -/
def elapsed_time_repr : FieldRepr := FieldRepr.atomicWord

/-! ## Lemmas about the barrier -/

theorem sync_count (c : Int) : (sync c).count = c - 1 := by
  unfold sync
  split
  · rfl
  · split <;> rfl

theorem countAfterCalls_eq (k : Nat) : ∀ c : Int, countAfterCalls k c = c - k := by
  induction k with
  | zero => intro c; simp [countAfterCalls]
  | succ k ih =>
      intro c
      rw [countAfterCalls, sync_count, ih]
      push_cast
      ring

theorem toInt32_le (n : Nat) : toInt32 n ≤ (n : Int) := by
  unfold toInt32
  have h := Nat.mod_le n (2 ^ 32)
  split <;> omega

theorem inv_step {s t : BState} (hs : Inv s) (h : Step s t) : Inv t := by
  obtain ⟨hcount, hpanic, hpre, htok⟩ := hs
  cases h with
  | dec c sem r =>
      simp only [Inv] at hcount hpanic hpre htok ⊢
      rw [Multiset.count_cons_self] at hcount
      rw [Multiset.count_cons_of_ne (by decide)] at hpanic
      rw [Multiset.count_cons_of_ne (by decide),
        Multiset.count_cons_of_ne (by decide)] at htok
      obtain ⟨hsem, hrel, hpost, hdone⟩ :=
        hpre (by rw [Multiset.count_cons_self]; omega)
      rw [Multiset.count_cons_of_ne (by decide)] at hrel
      rw [Multiset.count_cons_of_ne (by decide)] at hpost
      rw [Multiset.count_cons_of_ne (by decide)] at hdone
      rcases Nat.eq_zero_or_pos (r.count TState.start) with h0 | h0
      · have hx : c - 1 = 0 := by omega
        rw [hx]
        have hnext : syncNext 0 = TState.post := by decide
        rw [hnext]
        refine ⟨?_, ?_, ?_, ?_⟩
        · rw [Multiset.count_cons_of_ne (by decide)]; omega
        · rw [Multiset.count_cons_of_ne (by decide)]; exact hpanic
        · intro hlt
          rw [Multiset.count_cons_of_ne (by decide)] at hlt; omega
        · rw [Multiset.count_cons_of_ne (by decide), Multiset.count_cons_self]
          omega
      · have hx : 0 < c - 1 := by omega
        have hnext : syncNext (c - 1) = TState.waiting := by
          unfold syncNext
          rw [if_neg (by omega), if_neg (by omega)]
        rw [hnext]
        refine ⟨?_, ?_, ?_, ?_⟩
        · rw [Multiset.count_cons_of_ne (by decide)]; omega
        · rw [Multiset.count_cons_of_ne (by decide)]; exact hpanic
        · intro _
          refine ⟨hsem, ?_, ?_, ?_⟩
          · rw [Multiset.count_cons_of_ne (by decide)]; exact hrel
          · rw [Multiset.count_cons_of_ne (by decide)]; exact hpost
          · rw [Multiset.count_cons_of_ne (by decide)]; exact hdone
        · rw [Multiset.count_cons_of_ne (by decide),
            Multiset.count_cons_of_ne (by decide)]
          omega
  | lastUp c sem r =>
      simp only [Inv] at hcount hpanic hpre htok ⊢
      rw [Multiset.count_cons_of_ne (by decide)] at hcount
      rw [Multiset.count_cons_of_ne (by decide)] at hpanic
      rw [Multiset.count_cons_of_ne (by decide),
        Multiset.count_cons_self] at htok
      have hstart : r.count TState.start = 0 := by
        by_contra hne
        obtain ⟨_, _, hp, _⟩ :=
          hpre (by rw [Multiset.count_cons_of_ne (by decide)]; omega)
        rw [Multiset.count_cons_self] at hp; omega
      refine ⟨?_, ?_, ?_, ?_⟩
      · rw [Multiset.count_cons_of_ne (by decide)]; omega
      · rw [Multiset.count_cons_of_ne (by decide)]; exact hpanic
      · intro hlt
        rw [Multiset.count_cons_of_ne (by decide)] at hlt; omega
      · rw [Multiset.count_cons_of_ne (by decide),
          Multiset.count_cons_of_ne (by decide)]
        omega
  | semDown c sem r =>
      simp only [Inv] at hcount hpanic hpre htok ⊢
      rw [Multiset.count_cons_of_ne (by decide)] at hcount
      rw [Multiset.count_cons_of_ne (by decide)] at hpanic
      rw [Multiset.count_cons_of_ne (by decide),
        Multiset.count_cons_of_ne (by decide)] at htok
      have hstart : r.count TState.start = 0 := by
        by_contra hne
        obtain ⟨hsem, _, _, _⟩ :=
          hpre (by rw [Multiset.count_cons_of_ne (by decide)]; omega)
        omega
      refine ⟨?_, ?_, ?_, ?_⟩
      · rw [Multiset.count_cons_of_ne (by decide)]; omega
      · rw [Multiset.count_cons_of_ne (by decide)]; exact hpanic
      · intro hlt
        rw [Multiset.count_cons_of_ne (by decide)] at hlt; omega
      · rw [Multiset.count_cons_self,
          Multiset.count_cons_of_ne (by decide)]
        omega
  | relayUp c sem r =>
      simp only [Inv] at hcount hpanic hpre htok ⊢
      rw [Multiset.count_cons_of_ne (by decide)] at hcount
      rw [Multiset.count_cons_of_ne (by decide)] at hpanic
      rw [Multiset.count_cons_self,
        Multiset.count_cons_of_ne (by decide)] at htok
      have hstart : r.count TState.start = 0 := by
        by_contra hne
        obtain ⟨_, hrel, _, _⟩ :=
          hpre (by rw [Multiset.count_cons_of_ne (by decide)]; omega)
        rw [Multiset.count_cons_self] at hrel; omega
      refine ⟨?_, ?_, ?_, ?_⟩
      · rw [Multiset.count_cons_of_ne (by decide)]; omega
      · rw [Multiset.count_cons_of_ne (by decide)]; exact hpanic
      · intro hlt
        rw [Multiset.count_cons_of_ne (by decide)] at hlt; omega
      · rw [Multiset.count_cons_of_ne (by decide),
          Multiset.count_cons_of_ne (by decide)]
        omega

theorem inv_initState (n : Nat) : Inv (initState n) := by
  unfold Inv initState
  simp [Multiset.count_replicate]

theorem inv_reachable {s t : BState} (hs : Inv s) (h : Reachable s t) : Inv t := by
  induction h with
  | refl => exact hs
  | tail _ hstep ih => exact inv_step ih hstep

/-! ## Lemmas about the nearest-color search -/

theorem argminFold_le (f : Nat → Nat) (l : List Nat) (a : Nat) :
    f (argminFold f l a) ≤ f a ∧ ∀ x ∈ l, f (argminFold f l a) ≤ f x := by
  induction l generalizing a with
  | nil => exact ⟨le_refl _, by simp⟩
  | cons x l ih =>
      have hfold : argminFold f (x :: l) a
          = argminFold f l (if f x < f a then x else a) := rfl
      obtain ⟨h1, h2⟩ := ih (if f x < f a then x else a)
      have hb : f (if f x < f a then x else a) ≤ f a ∧
          f (if f x < f a then x else a) ≤ f x := by
        split <;> omega
      constructor
      · rw [hfold]; exact le_trans h1 hb.1
      · intro y hy
        rw [hfold]
        rcases List.mem_cons.mp hy with h | h
        · rw [h]; exact le_trans h1 hb.2
        · exact h2 y h

/-! ## Claim theorems -/

/-- C1: each `Barrier::sync` call decrements the countdown exactly
once; when the decremented value is exactly zero the call posts one
semaphore token and never blocks on the semaphore; when the
decremented value is positive the call consumes one token (blocking
`down`) and then re-posts exactly one token before returning. -/
theorem claim_c1_sync_single_token_relay (c : Int) :
    (sync c).count = c - 1 ∧
    (c - 1 = 0 → (sync c).panicked = false ∧ (sync c).ops = [SemOp.up]) ∧
    (0 < c - 1 →
      (sync c).panicked = false ∧ (sync c).ops = [SemOp.down, SemOp.up]) := by
  refine ⟨sync_count c, ?_, ?_⟩
  · intro h
    unfold sync
    rw [if_neg (by omega), if_pos h]
    exact ⟨rfl, rfl⟩
  · intro h
    unfold sync
    rw [if_neg (by omega), if_neg (by omega)]
    exact ⟨rfl, rfl⟩

/-- Witness for C1 at concrete countdowns: 1 (the last arrival posts
without ever blocking) and 2 (a waiter consumes one token and
re-posts one). -/
theorem claim_c1_sync_single_token_relay_witness :
    ((sync 1).count = 0 ∧ (sync 1).panicked = false ∧
      (sync 1).ops = [SemOp.up]) ∧
    ((sync 2).panicked = false ∧ (sync 2).ops = [SemOp.down, SemOp.up]) := by
  refine ⟨⟨?_, ?_, ?_⟩, ?_⟩
  · simpa using (claim_c1_sync_single_token_relay 1).1
  · exact ((claim_c1_sync_single_token_relay 1).2.1 (by decide)).1
  · exact ((claim_c1_sync_single_token_relay 1).2.1 (by decide)).2
  · exact (claim_c1_sync_single_token_relay 2).2.2 (by decide)

/-- C2: a `sync` call whose atomic decrement yields a negative
countdown panics (and performs no semaphore operation, so the caller
never proceeds past it): on a barrier constructed for `n` parties the
`k`-th sequential call with `k > n` hits this path. -/
theorem claim_c2_excess_sync_panics (n k : Nat) (h : n < k) :
    (sync (countAfterCalls (k - 1) (barrierInit n))).panicked = true ∧
    (sync (countAfterCalls (k - 1) (barrierInit n))).ops = [] := by
  have hle := toInt32_le n
  have hc : countAfterCalls (k - 1) (barrierInit n)
      = barrierInit n - ((k - 1 : Nat) : Int) :=
    countAfterCalls_eq (k - 1) (barrierInit n)
  have hneg : countAfterCalls (k - 1) (barrierInit n) - 1 < 0 := by
    rw [hc]
    unfold barrierInit
    omega
  unfold sync
  rw [if_pos hneg]
  exact ⟨rfl, rfl⟩

/-- Witness for C2: a barrier configured for 3 parties panics on its
4th `sync` call. -/
theorem claim_c2_excess_sync_panics_witness :
    (sync (countAfterCalls 3 (barrierInit 3))).panicked = true ∧
    (sync (countAfterCalls 3 (barrierInit 3))).ops = [] := by
  simpa using claim_c2_excess_sync_panics 3 4 (by decide)

/-- C3: in every state reachable from `n` parties concurrently
calling `sync` on a barrier for `n` parties, at most one semaphore
token exists, and no call has returned while any party has yet to
issue its decrement (so nobody returns before the `n`-th call). -/
theorem claim_c3_rendezvous_single_token (n : Nat) (s : BState)
    (h : Reachable (initState n) s) :
    s.sem ≤ 1 ∧
    (0 < s.threads.count TState.done → s.threads.count TState.start = 0) := by
  have hinv := inv_reachable (inv_initState n) h
  obtain ⟨_, _, hpre, htok⟩ := hinv
  refine ⟨by omega, ?_⟩
  intro hdone
  by_contra hne
  obtain ⟨_, _, _, hd⟩ := hpre (by omega)
  omega

/-- Witness for C3: the initial state of a two-party barrier is
reachable (empty step sequence) and satisfies both conclusions. -/
theorem claim_c3_rendezvous_single_token_witness :
    (initState 2).sem ≤ 1 ∧
    (0 < (initState 2).threads.count TState.done →
      (initState 2).threads.count TState.start = 0) :=
  claim_c3_rendezvous_single_token 2 (initState 2) Relation.ReflTransGen.refl

set_option maxRecDepth 100000 in
/-- C4: `getColor` is deterministic (a pure function of its
arguments), returns a nearest match (its palette entry minimizes the
channel distance metric over all 64 entries, ties broken by lowest
index via the first-minimum scan), and round-trips each of the 64
palette entries to its own index. -/
theorem claim_c4_getColor_roundtrip :
    (∀ r g b : Nat, getColor r g b = getColor r g b) ∧
    (∀ r g b j : Nat, j < 64 →
      colorDist r g b (paletteEntry (getColor r g b))
        ≤ colorDist r g b (paletteEntry j)) ∧
    (∀ i : Fin 64,
      getColor (paletteEntry i).1 (paletteEntry i).2.1
        (paletteEntry i).2.2 = (i : Nat)) := by
  refine ⟨fun _ _ _ => rfl, ?_, ?_⟩
  · intro r g b j hj
    exact (argminFold_le (fun i => colorDist r g b (paletteEntry i))
      (List.range 64) 0).2 j (List.mem_range.mpr hj)
  · decide

/-- Witness for C4: palette entry 5 is no nearer to the query
`(10, 20, 30)` than the entry `getColor` picked. -/
theorem claim_c4_getColor_roundtrip_witness :
    colorDist 10 20 30 (paletteEntry (getColor 10 20 30))
      ≤ colorDist 10 20 30 (paletteEntry 5) :=
  claim_c4_getColor_roundtrip.2.1 10 20 30 5 (by decide)

/-- C5 counterexample: `playing` and `new_song` are declared as plain
`volatile bool` fields (src/kernel/barrier.h lines 214-215) while the
elapsed-time counter is an `Atomic<uint32_t>` (line 217), so the
flags are not implemented with the counter's atomicity discipline. -/
theorem claim_c5_flags_not_atomic_counterexample :
    ¬(playing_repr = elapsed_time_repr ∧
      new_song_repr = elapsed_time_repr) := by
  decide

/-- C5 (amended): the `playing` and `new_song` flags are plain
unguarded `volatile bool` fields, whereas the elapsed-time counter is
an atomically updated word. -/
theorem claim_c5_flags_plain_volatile :
    playing_repr = FieldRepr.plainVolatileBool ∧
    new_song_repr = FieldRepr.plainVolatileBool ∧
    elapsed_time_repr = FieldRepr.atomicWord := by
  decide

/-- C6: after `spotify(file, willPlay := true)` and two
`playingSong 500` ticks the elapsed time is 1000 and the state is
Playing; a following `play_pause()` and another `playingSong 500`
leave elapsed time at 1000, the state Paused, and the loaded file
unchanged. -/
theorem claim_c6_playback_pause (s0 : PlayerState) (song : Nat) :
    (playingSong 500 (playingSong 500 (spotify song true s0))).elapsed
        = 1000 ∧
    (playingSong 500 (playingSong 500 (spotify song true s0))).status
        = PStatus.playing ∧
    (playingSong 500 (play_pause (playingSong 500 (playingSong 500
        (spotify song true s0))))).elapsed = 1000 ∧
    (playingSong 500 (play_pause (playingSong 500 (playingSong 500
        (spotify song true s0))))).status = PStatus.paused ∧
    (playingSong 500 (play_pause (playingSong 500 (playingSong 500
        (spotify song true s0))))).curr
      = (playingSong 500 (playingSong 500 (spotify song true s0))).curr :=
  ⟨rfl, rfl, rfl, rfl, rfl⟩

set_option maxRecDepth 100000 in
/-- C7: the palette is exactly 64 RGB triples (192 bytes) and the
triple at index 0 is black. -/
theorem claim_c7_palette_shape :
    palette.length = 192 ∧ paletteEntry 0 = (0, 0, 0) := by
  decide

/-- C8: for each indexed register group the data port is the index
port plus 1, and an indexed write emits the index byte on the index
port before the data byte on the data port. -/
theorem claim_c8_indexed_register_ports :
    SEQ_RW = SEQ_INDEX + 1 ∧
    GRAPHICS_CTRL_RW = GRAPHICS_CTRL_INDEX + 1 ∧
    CRTC_COLOR_WRITE = CRTC_COLOR_INDEX + 1 ∧
    CRTC_MONOCHROME_WRITE = CRTC_MONOCHROME_INDEX + 1 ∧
    (∀ idx v : Nat,
      writeIndexed SEQ_INDEX idx v = [(SEQ_INDEX, idx), (SEQ_RW, v)] ∧
      writeIndexed GRAPHICS_CTRL_INDEX idx v
          = [(GRAPHICS_CTRL_INDEX, idx), (GRAPHICS_CTRL_RW, v)] ∧
      writeIndexed CRTC_COLOR_INDEX idx v
          = [(CRTC_COLOR_INDEX, idx), (CRTC_COLOR_WRITE, v)] ∧
      writeIndexed CRTC_MONOCHROME_INDEX idx v
          = [(CRTC_MONOCHROME_INDEX, idx), (CRTC_MONOCHROME_WRITE, v)]) :=
  ⟨rfl, rfl, rfl, rfl, fun _ _ => ⟨rfl, rfl, rfl, rfl⟩⟩

/-- C9: the constructor accepts party count 0 without rejecting it
(the stored countdown is 0), and the very first `sync` call then
decrements it to -1 and panics. -/
theorem claim_c9_zero_party_barrier :
    barrierInit 0 = 0 ∧ (sync (barrierInit 0)).count = -1 ∧
    (sync (barrierInit 0)).panicked = true := by
  decide

/-- C10: palette entry `i` is the 4×4×4 cube color
`(0x55·(i/16), 0x55·((i/4)%4), 0x55·(i%4))`, enumerated red-major,
and the 64 triples are pairwise distinct. -/
theorem claim_c10_palette_cube :
    (∀ i : Fin 64, paletteEntry i
      = (0x55 * ((i : Nat) / 16), 0x55 * ((i : Nat) / 4 % 4),
          0x55 * ((i : Nat) % 4))) ∧
    ((List.range 64).map paletteEntry).Nodup := by
  decide

end OSMusic
